import Mathlib

/-!
Verification of the sticker-pack core of `luks3r/stickerpicker` against its
specification.  The Python sources under `sticker/lib/image.py`,
`sticker/pack.py` and `sticker/lib/util.py` are shallowly embedded below:
pure functions become Lean functions, byte strings become `List Nat`,
fallible code returns `Option` or `Except`, and external collaborators
(PIL, rlottie rendering, sha256, the Matrix upload transport, MIME
sniffing) are passed in as explicit function parameters.
-/

/-! ## Format Registry (`sticker/lib/image.py`, class `ImageFormat`) -/

/-- The closed enumeration of image formats from `class ImageFormat(enum.Enum)`. -/
inductive ImageFormat where
  | JPEG
  | GIF
  | PNG
  | APNG
  | WEBP
  | AVIF
  | TGS
  | UNKNOWN
deriving DecidableEq, Repr

/-- `ImageFormat.from_mime_type`: the Python `match` statement on the MIME
string is an equality chain; the wildcard arm yields `UNKNOWN`. -/
def ImageFormat.from_mime_type (mime_type : String) : ImageFormat :=
  if mime_type = "image/png" then .PNG
  else if mime_type = "application/x-tgsticker" then .TGS
  else if mime_type = "image/webp" then .WEBP
  else if mime_type = "image/jpeg" then .JPEG
  else if mime_type = "image/gif" then .GIF
  else if mime_type = "image/apng" then .APNG
  else if mime_type = "image/avif" then .AVIF
  else .UNKNOWN

/-- `ImageFormat.to_mime_type`: exhaustive match over the enumeration. -/
def ImageFormat.to_mime_type : ImageFormat → String
  | .PNG => "image/png"
  | .TGS => "application/x-tgsticker"
  | .WEBP => "image/webp"
  | .JPEG => "image/jpeg"
  | .GIF => "image/gif"
  | .APNG => "image/apng"
  | .AVIF => "image/avif"
  | .UNKNOWN => "image/unknown"

/-- `ImageFormat.from_extension`: equality chain over extension strings. -/
def ImageFormat.from_extension (extension : String) : ImageFormat :=
  if extension = "png" then .PNG
  else if extension = "tgs" then .TGS
  else if extension = "webp" then .WEBP
  else if extension = "jpg" then .JPEG
  else if extension = "gif" then .GIF
  else if extension = "apng" then .APNG
  else if extension = "avif" then .AVIF
  else .UNKNOWN

/-- `ImageFormat.to_extension`: exhaustive match over the enumeration. -/
def ImageFormat.to_extension : ImageFormat → String
  | .PNG => "png"
  | .TGS => "tgs"
  | .WEBP => "webp"
  | .JPEG => "jpg"
  | .GIF => "gif"
  | .APNG => "apng"
  | .AVIF => "avif"
  | .UNKNOWN => "unknown"

/-- Claim C3, counterexample: the claim states that on the `UNKNOWN` tag
`to_mime_type` returns the placeholder string `"unknown"`; in the code it
returns `"image/unknown"`, which is a different string. -/
theorem to_mime_type_unknown_ne_unknown :
    ImageFormat.to_mime_type ImageFormat.UNKNOWN = "image/unknown" ∧
    ImageFormat.to_mime_type ImageFormat.UNKNOWN ≠ "unknown" := by
  constructor
  · rfl
  · decide

/-- Claim C3 (amended): the four registry lookups are total Lean functions;
`from_mime_type` and `from_extension` return a tag for every input string,
yielding `UNKNOWN` exactly when the input is outside the fixed table, and on
the `UNKNOWN` tag `to_extension` returns `"unknown"` while `to_mime_type`
returns `"image/unknown"`. -/
theorem format_registry_total (s : String) :
    (ImageFormat.from_mime_type s = ImageFormat.UNKNOWN ∨
      s ∈ ["image/png", "application/x-tgsticker", "image/webp", "image/jpeg",
           "image/gif", "image/apng", "image/avif"]) ∧
    (ImageFormat.from_extension s = ImageFormat.UNKNOWN ∨
      s ∈ ["png", "tgs", "webp", "jpg", "gif", "apng", "avif"]) ∧
    ImageFormat.to_mime_type ImageFormat.UNKNOWN = "image/unknown" ∧
    ImageFormat.to_extension ImageFormat.UNKNOWN = "unknown" := by
  refine ⟨?_, ?_, rfl, rfl⟩
  · unfold ImageFormat.from_mime_type
    split_ifs with h1 h2 h3 h4 h5 h6 h7 <;> simp_all
  · unfold ImageFormat.from_extension
    split_ifs with h1 h2 h3 h4 h5 h6 h7 <;> simp_all

/-- Claim C9: `from_extension` recognizes only the spelling `"jpg"` for the
`JPEG` tag; `"jpeg"` and uppercase spellings such as `"PNG"` are unmatched
and yield `UNKNOWN`, while `to_extension JPEG = "jpg"` round-trips back to
`JPEG`. -/
theorem from_extension_jpg_spelling (s : String) :
    (ImageFormat.from_extension s = ImageFormat.JPEG ↔ s = "jpg") ∧
    ImageFormat.from_extension "jpeg" = ImageFormat.UNKNOWN ∧
    ImageFormat.from_extension "PNG" = ImageFormat.UNKNOWN ∧
    ImageFormat.to_extension ImageFormat.JPEG = "jpg" ∧
    ImageFormat.from_extension (ImageFormat.to_extension ImageFormat.JPEG)
      = ImageFormat.JPEG := by
  refine ⟨?_, by decide, by decide, rfl, by decide⟩
  unfold ImageFormat.from_extension
  split_ifs with h1 h2 h3 h4 h5 h6 h7 <;> simp_all

/-- Concrete instance of `from_extension_jpg_spelling` at `"jpg"`. -/
theorem from_extension_jpg_spelling_witness :
    ImageFormat.from_extension "jpg" = ImageFormat.JPEG :=
  (from_extension_jpg_spelling "jpg").1.mpr rfl

/-! ## Canonical Image Model (`sticker/lib/image.py`, class `GenericImage`) -/

/-- `@dataclass class GenericImage`: encoded bytes (modelled as `List Nat`),
pixel dimensions and format tag. -/
structure GenericImage where
  data : List Nat
  width : Nat
  height : Nat
  format : ImageFormat
deriving DecidableEq, Repr

/-- `GenericImage.to_thumbnail`: caps dimensions at 256 while keeping the
encoded bytes and format.  The Python scaling `int(shorter / (longer / 256))`
is float arithmetic whose result equals the integer floor
`shorter * 256 / longer` for all dimensions below `2 ^ 25` (the division by
256 is exact, and the final correctly rounded division cannot cross an
integer boundary at these magnitudes), so it is embedded as natural-number
division. -/
def GenericImage.to_thumbnail (img : GenericImage) : GenericImage :=
  if 256 < img.width ∨ 256 < img.height then
    if img.height < img.width then
      { data := img.data, width := 256,
        height := img.height * 256 / img.width, format := img.format }
    else
      { data := img.data, width := img.width * 256 / img.height,
        height := 256, format := img.format }
  else
    { data := img.data, width := img.width,
      height := img.height, format := img.format }

theorem scaled_side_le (s l : Nat) (h : s ≤ l) : s * 256 / l ≤ 256 := by
  rcases Nat.eq_zero_or_pos l with hl | hl
  · subst hl
    simp
  · calc s * 256 / l ≤ l * 256 / l :=
        Nat.div_le_div_right (Nat.mul_le_mul_right 256 h)
      _ = 256 := Nat.mul_div_cancel_left 256 hl

theorem to_thumbnail_eta (img : GenericImage) :
    ({ data := img.data, width := img.width,
       height := img.height, format := img.format } : GenericImage) = img := by
  cases img
  rfl

theorem to_thumbnail_small (img : GenericImage)
    (hw : img.width ≤ 256) (hh : img.height ≤ 256) :
    img.to_thumbnail = img := by
  unfold GenericImage.to_thumbnail
  rw [if_neg (by push_neg; exact ⟨hw, hh⟩)]

theorem to_thumbnail_dims_le (img : GenericImage) :
    img.to_thumbnail.width ≤ 256 ∧ img.to_thumbnail.height ≤ 256 := by
  unfold GenericImage.to_thumbnail
  split_ifs with hbig hwide
  · exact ⟨le_refl 256, scaled_side_le _ _ (Nat.le_of_lt hwide)⟩
  · exact ⟨scaled_side_le _ _ (Nat.le_of_not_lt hwide), le_refl 256⟩
  · push_neg at hbig
    exact hbig

/-- Claim C4: `to_thumbnail` keeps the encoded bytes and format; when both
dimensions are at most 256 it keeps the dimensions, otherwise the longer
of the two slots itself becomes exactly 256 (`width` when
`height < width`, `height` otherwise — on a tie both end up 256) and the
shorter slot becomes the truncation of `shorter * 256 / longer`.  (The
original value is untouched: the method builds a fresh `GenericImage`,
embedded here as a pure function.) -/
theorem to_thumbnail_spec (img : GenericImage) :
    img.to_thumbnail.data = img.data ∧
    img.to_thumbnail.format = img.format ∧
    (img.width ≤ 256 → img.height ≤ 256 →
      img.to_thumbnail.width = img.width ∧
      img.to_thumbnail.height = img.height) ∧
    ((256 < img.width ∨ 256 < img.height) →
      (img.height < img.width →
        img.to_thumbnail.width = 256 ∧
        img.to_thumbnail.height = img.height * 256 / img.width) ∧
      (img.width ≤ img.height →
        img.to_thumbnail.width = img.width * 256 / img.height ∧
        img.to_thumbnail.height = 256)) := by
  refine ⟨?_, ?_, ?_, ?_⟩
  · unfold GenericImage.to_thumbnail
    split_ifs <;> rfl
  · unfold GenericImage.to_thumbnail
    split_ifs <;> rfl
  · intro hw hh
    rw [to_thumbnail_small img hw hh]
    exact ⟨rfl, rfl⟩
  · intro hbig
    unfold GenericImage.to_thumbnail
    rw [if_pos hbig]
    split_ifs with hwide
    · exact ⟨fun _ => ⟨rfl, rfl⟩, fun hle => absurd hwide (Nat.not_lt.mpr hle)⟩
    · exact ⟨fun hlt => absurd hlt hwide, fun _ => ⟨rfl, rfl⟩⟩

/-- Concrete instance of `to_thumbnail_spec`: a 512 by 300 image is scaled
to exactly 256 by 150 (width slot capped, height slot truncated), and a
100 by 80 image is unchanged. -/
theorem to_thumbnail_spec_witness :
    ((GenericImage.to_thumbnail ⟨[1], 512, 300, ImageFormat.PNG⟩).width = 256 ∧
      (GenericImage.to_thumbnail ⟨[1], 512, 300, ImageFormat.PNG⟩).height
        = 300 * 256 / 512) ∧
    ((GenericImage.to_thumbnail ⟨[1], 100, 80, ImageFormat.PNG⟩).width = 100 ∧
      (GenericImage.to_thumbnail ⟨[1], 100, 80, ImageFormat.PNG⟩).height = 80) :=
  ⟨((to_thumbnail_spec ⟨[1], 512, 300, ImageFormat.PNG⟩).2.2.2
      (Or.inl (by decide))).1 (by decide),
   (to_thumbnail_spec ⟨[1], 100, 80, ImageFormat.PNG⟩).2.2.1 (by decide) (by decide)⟩

/-- Claim C6: `to_thumbnail` is idempotent — a second application leaves the
width and height of the first application unchanged. -/
theorem to_thumbnail_idempotent (img : GenericImage) :
    img.to_thumbnail.to_thumbnail.width = img.to_thumbnail.width ∧
    img.to_thumbnail.to_thumbnail.height = img.to_thumbnail.height := by
  obtain ⟨hw, hh⟩ := to_thumbnail_dims_le img
  rw [to_thumbnail_small img.to_thumbnail hw hh]
  exact ⟨rfl, rfl⟩

/-! ## Animation Transcoder (`sticker/lib/image.py`, `convert_tgs_to_webp`) -/

/-- The decoded Lottie animation as exposed by rlottie: total frame count,
playback rate in frames per second (a double in rlottie, embedded as a
rational), and the opaque per-index rendered frame buffer
(`lottie_animation_render(i)` followed by `Image.frombytes`), modelled as an
abstract `Nat`-valued rendering function. -/
structure LottieAnimation where
  totalframe : Nat
  framerate : ℚ
  render : Nat → Nat

/-- The encoded WebP result: either a single static frame
(`frames[0].save(output, quality=95)`) or an animated asset carrying the
frame sequence, the per-frame duration in milliseconds and the loop count
(`loop=0` encodes "loop forever" in WebP). -/
inductive WebpAsset where
  | static (frame : Nat)
  | animated (frames : List Nat) (duration : ℤ) (loop : Nat)
deriving DecidableEq, Repr

/-- Python `int()` on a rational value: truncation toward zero. -/
def pyInt (q : ℚ) : ℤ :=
  if 0 ≤ q then ⌊q⌋ else ⌈q⌉

/-- `convert_tgs_to_webp`, decode step abstracted: the code renders frames
`0, …, totalframe - 1` in order, then saves a static WebP when
`len(frames) <= 1` and an animated WebP with
`duration=int(1000 / framerate)` and `loop=0` otherwise.  An empty frame
list makes `frames[0]` raise (modelled as `none`), and a zero frame rate
makes `1000 / framerate` raise `ZeroDivisionError` in the multi-frame
branch (also `none`). -/
def convert_tgs_to_webp (a : LottieAnimation) : Option WebpAsset :=
  let frames := (List.range a.totalframe).map a.render
  if 1 < frames.length then
    if a.framerate = 0 then none
    else some (.animated frames (pyInt ((1000 : ℚ) / a.framerate)) 0)
  else
    match frames with
    | [] => none
    | f :: _ => some (.static f)

/-- Claim C1, counterexample: at frame rate 60 the code emits a per-frame
duration of `int(1000 / 60) = 16` milliseconds, while the claim demands
`round(1000 / 60) = 17`. -/
theorem convert_tgs_duration_truncates_not_rounds :
    convert_tgs_to_webp { totalframe := 2, framerate := 60, render := fun i => i }
      = some (WebpAsset.animated [0, 1] 16 0) ∧
    (16 : ℤ) ≠ round ((1000 : ℚ) / 60) := by
  constructor
  · have hd : pyInt ((1000 : ℚ) / 60) = 16 := by
      unfold pyInt
      rw [if_pos (by norm_num)]
      norm_num [Int.floor_eq_iff]
    unfold convert_tgs_to_webp
    simp only [List.length_map, List.length_range]
    rw [if_pos (by norm_num), if_neg (by norm_num), hd]
    rfl
  · rw [round_eq]
    norm_num [Int.floor_eq_iff]

/-- Claim C1 (amended): a one-frame animation is encoded as a static raster
asset; an animation with more than one frame and a nonzero frame rate is
encoded as one animated asset whose frames are exactly the rendered frames
in rendering order, whose loop count is 0 ("loop indefinitely"), and whose
per-frame duration is the Python `int()` truncation of `1000 / R`
milliseconds — not `round(1000 / R)` as claimed. -/
theorem convert_tgs_to_webp_spec (a : LottieAnimation) :
    (a.totalframe = 1 →
      convert_tgs_to_webp a = some (.static (a.render 0))) ∧
    (1 < a.totalframe → a.framerate ≠ 0 →
      convert_tgs_to_webp a =
        some (.animated ((List.range a.totalframe).map a.render)
          (pyInt ((1000 : ℚ) / a.framerate)) 0)) := by
  constructor
  · intro h1
    unfold convert_tgs_to_webp
    rw [h1]
    rfl
  · intro hF hR
    unfold convert_tgs_to_webp
    rw [if_pos (by simpa using hF), if_neg hR]

/-- Concrete instances of `convert_tgs_to_webp_spec`: a one-frame animation
becomes a static asset, and a two-frame animation at 60 fps becomes an
animated asset with the rendered frames in order. -/
theorem convert_tgs_to_webp_spec_witness :
    convert_tgs_to_webp { totalframe := 1, framerate := 30, render := fun i => i + 5 }
      = some (.static 5) ∧
    convert_tgs_to_webp { totalframe := 2, framerate := 60, render := fun i => i + 5 }
      = some (.animated ((List.range 2).map (fun i => i + 5))
          (pyInt ((1000 : ℚ) / 60)) 0) :=
  ⟨(convert_tgs_to_webp_spec
      { totalframe := 1, framerate := 30, render := fun i => i + 5 }).1 rfl,
   (convert_tgs_to_webp_spec
      { totalframe := 2, framerate := 60, render := fun i => i + 5 }).2
      (by decide) (by norm_num)⟩

/-- Claim C5: a parsed animation with frame count 0 produces no asset at
all — `frames[0]` raises on the empty frame list, so the transcoder fails
instead of emitting an empty asset. -/
theorem convert_tgs_empty_animation_fails (a : LottieAnimation)
    (h : a.totalframe = 0) : convert_tgs_to_webp a = none := by
  unfold convert_tgs_to_webp
  rw [h]
  rfl

/-- Concrete instance of `convert_tgs_empty_animation_fails`. -/
theorem convert_tgs_empty_animation_fails_witness :
    convert_tgs_to_webp { totalframe := 0, framerate := 30, render := fun i => i }
      = none :=
  convert_tgs_empty_animation_fails
    { totalframe := 0, framerate := 30, render := fun i => i } rfl

/-! ## Display-name derivation (`sticker/pack.py`, `upload_sticker` lines 67-74) -/

/-- Index of the last `'.'` in a character list, if any. -/
def lastDotIdx (cs : List Char) : Option Nat :=
  (List.range cs.length).foldl
    (fun acc i => if cs.getD i ' ' = '.' then some i else acc) none

/-- `os.path.splitext(file)[0]` for a bare filename (no path separators):
split at the last dot, except that a filename consisting only of leading
dots up to that position has no extension (so `".bashrc"` keeps its name). -/
def splitext_stem (file : String) : String :=
  let cs := file.data
  let leading := (cs.takeWhile (fun c => c = '.')).length
  match lastDotIdx cs with
  | none => file
  | some i => if leading < i then String.mk (cs.take i) else file

/-- `name.split("-", 1)` when it yields two pieces: split at the first
dash, returning the part before and the part after. -/
def splitDashOnce : List Char → Option (List Char × List Char)
  | [] => none
  | c :: cs =>
    if c = '-' then some ([], cs)
    else
      match splitDashOnce cs with
      | none => none
      | some (d, r) => some (c :: d, r)

/-- The ordinal-prefix strip: `if len(name_split) == 2 and
name_split[0].isdecimal(): name = name_split[1]`.  Python `isdecimal` is
false on the empty string; decimal characters are modelled as the ASCII
digits. -/
def strip_ordinal (cs : List Char) : List Char :=
  match splitDashOnce cs with
  | none => cs
  | some (d, r) => if !d.isEmpty && d.all Char.isDigit then r else cs

/-- Whether the stem has a dash and an all-decimal nonempty part before the
first dash. -/
def hasOrdinal (cs : List Char) : Bool :=
  match splitDashOnce cs with
  | none => false
  | some (d, _) => !d.isEmpty && d.all Char.isDigit

/-- The display name of `upload_sticker`: extension stripped, then ordinal
prefix dropped. -/
def derive_name (file : String) : String :=
  String.mk (strip_ordinal (splitext_stem file).data)

theorem splitDashOnce_append (d r : List Char) (hd : ∀ c ∈ d, c ≠ '-') :
    splitDashOnce (d ++ '-' :: r) = some (d, r) := by
  induction d with
  | nil => rfl
  | cons c cs ih =>
    have hc : c ≠ '-' := hd c (List.mem_cons_self c cs)
    have ihh := ih (fun x hx => hd x (List.mem_cons_of_mem c hx))
    simp only [List.cons_append]
    unfold splitDashOnce
    rw [if_neg hc, ihh]

theorem splitDashOnce_eq_some (cs d r : List Char)
    (h : splitDashOnce cs = some (d, r)) : cs = d ++ '-' :: r := by
  induction cs generalizing d r with
  | nil => simp [splitDashOnce] at h
  | cons c t ih =>
    by_cases hc : c = '-'
    · subst hc
      unfold splitDashOnce at h
      rw [if_pos rfl] at h
      simp only [Option.some.injEq, Prod.mk.injEq] at h
      rw [← h.1, ← h.2]
      rfl
    · simp only [splitDashOnce, if_neg hc] at h
      cases hsd : splitDashOnce t with
      | none => rw [hsd] at h; exact absurd h (by simp)
      | some p =>
        obtain ⟨d1, r1⟩ := p
        rw [hsd] at h
        simp only [Option.some.injEq, Prod.mk.injEq] at h
        rw [← h.1, ← h.2]
        simpa using ih d1 r1 hsd

theorem digit_ne_dash (c : Char) (h : c.isDigit = true) : c ≠ '-' := by
  intro hc
  subst hc
  simp [Char.isDigit] at h

theorem hasOrdinal_of_decomp (cs d r : List Char) (h : cs = d ++ '-' :: r)
    (hne : d ≠ []) (hdig : d.all Char.isDigit = true) :
    hasOrdinal cs = true := by
  subst h
  have hnd : ∀ c ∈ d, c ≠ '-' := by
    intro c hc
    exact digit_ne_dash c (by simpa using List.all_eq_true.mp hdig c hc)
  unfold hasOrdinal
  rw [splitDashOnce_append d r hnd]
  simp [hdig, hne]

theorem no_ordinal_decomp (cs : List Char) (hres : hasOrdinal cs = false) :
    ∀ d r, cs = d ++ '-' :: r → (d.isEmpty || !d.all Char.isDigit) = true := by
  intro d r h
  cases hall : d.all Char.isDigit with
  | false => simp [hall]
  | true =>
    by_cases hne : d = []
    · simp [hne]
    · have hres2 := hasOrdinal_of_decomp cs d r h hne hall
      rw [hres] at hres2
      exact absurd hres2 (by simp)

/-- Claim C7: the display name is the stem of the filename with the
extension stripped; exactly when the stem has the shape
`<digits>-<rest>` with a nonempty all-decimal prefix before the first dash,
that prefix and the dash are dropped; otherwise the stem is kept whole. -/
theorem derive_name_spec (file : String) :
    (∀ d r : List Char,
      (splitext_stem file).data = d ++ '-' :: r →
      d ≠ [] → d.all Char.isDigit = true →
      derive_name file = String.mk r) ∧
    ((∀ d r : List Char,
        (splitext_stem file).data = d ++ '-' :: r →
        (d.isEmpty || !d.all Char.isDigit) = true) →
      derive_name file = splitext_stem file) := by
  constructor
  · intro d r hshape hne hdig
    have hnd : ∀ c ∈ d, c ≠ '-' := by
      intro c hc
      exact digit_ne_dash c (by simpa using List.all_eq_true.mp hdig c hc)
    unfold derive_name strip_ordinal
    rw [hshape, splitDashOnce_append d r hnd]
    simp [hdig, hne]
  · intro hno
    unfold derive_name strip_ordinal
    cases hsd : splitDashOnce (splitext_stem file).data with
    | none => rfl
    | some p =>
      obtain ⟨d, r⟩ := p
      have hdec := splitDashOnce_eq_some _ d r hsd
      have hbad := hno d r hdec
      have hcond : (!d.isEmpty && d.all Char.isDigit) = false := by
        cases hall : d.all Char.isDigit with
        | false => simp [hall]
        | true =>
          have he : d.isEmpty = true := by simpa [hall] using hbad
          simp [he]
      show String.mk (if (!d.isEmpty && d.all Char.isDigit) = true then r
        else (splitext_stem file).data) = splitext_stem file
      rw [hcond, if_neg (by simp)]

/-- Concrete instances of `derive_name_spec`: `"03-wave.png"` yields
`"wave"`, `"wave.png"` yields `"wave"`, `"abc-wave.png"` yields
`"abc-wave"`. -/
theorem derive_name_spec_witness :
    derive_name "03-wave.png" = "wave" ∧
    derive_name "wave.png" = "wave" ∧
    derive_name "abc-wave.png" = "abc-wave" := by
  refine ⟨?_, ?_, ?_⟩
  · have h := (derive_name_spec "03-wave.png").1 ['0', '3'] ['w', 'a', 'v', 'e']
      (by decide) (by decide) (by decide)
    exact h.trans (by decide)
  · have h := (derive_name_spec "wave.png").2
      (no_ordinal_decomp _ (by decide))
    exact h.trans (by decide)
  · have h := (derive_name_spec "abc-wave.png").2
      (no_ordinal_decomp _ (by decide))
    exact h.trans (by decide)

/-! ## Asset Synchronizer (`sticker/pack.py`, `upload_sticker` and
`sticker/lib/util.py`, `make_sticker`) -/

/-- The nested `thumbnail_info` block of a sticker entry. -/
structure ThumbnailInfo where
  w : Nat
  h : Nat
  size : Nat
  mimetype : String
deriving DecidableEq, Repr

/-- The `info` block of a sticker entry, including the Element iOS
compatibility duplication of the primary fields as thumbnail fields. -/
structure StickerImageInfo where
  w : Nat
  h : Nat
  size : Nat
  mimetype : String
  thumbnail_url : String
  thumbnail_info : ThumbnailInfo
deriving DecidableEq, Repr

/-- `matrix.StickerInfo`: one pack entry. -/
structure StickerInfo where
  id : String
  body : String
  url : String
  info : StickerImageInfo
  msgtype : String
deriving DecidableEq, Repr

/-- `util.make_sticker` (the Python `mimetype` parameter defaults to
`"image/png"`; `upload_sticker` relies on that default, so callers here
pass it explicitly). -/
def make_sticker (mxc : String) (width height size : Nat) (body : String)
    (mimetype : String) : StickerInfo :=
  { id := "scalar-" ++ ((mxc.splitOn "/").getLastD ""),
    body := body,
    url := mxc,
    info :=
      { w := width, h := height, size := size, mimetype := mimetype,
        thumbnail_url := mxc,
        thumbnail_info :=
          { w := width, h := height, size := size, mimetype := mimetype } },
    msgtype := "m.sticker" }

/-- The external collaborators used by `upload_sticker`: the sha256 hex
digest of raw bytes, MIME detection for a file name, the whole of
`GenericImage.from_bytes` (PIL decode, 4-channel normalization and
re-encode, plus the TGS-to-WebP transcode when the format is `TGS`),
returning re-encoded bytes with decoded dimensions, and the Matrix
`upload(bytes, mimeType, filename)` transport returning a content locator. -/
structure SyncEnv where
  hashHex : List Nat → String
  mimeOf : String → Option String
  decode : List Nat → ImageFormat → List Nat × Nat × Nat
  upload : List Nat → String → String → String

/-- Python `str.startswith` on character lists: the second argument is a
leading piece of the first. -/
def listStartsWith : List Char → List Char → Bool
  | _, [] => true
  | [], _ :: _ => false
  | a :: as, b :: bs => a = b && listStartsWith as bs

/-- Python `str.startswith` on strings. -/
def strStartsWith (s pre : String) : Bool :=
  listStartsWith s.data pre.data

/-- `old_stickers` lookup: the previous manifest entries keyed by id
(a Python dict; keys are unique, so first-match association lookup). -/
def lookupSticker (old : List (String × StickerInfo)) (k : String) :
    Option StickerInfo :=
  (old.find? (fun kv => kv.1 == k)).map (fun kv => kv.2)

/-- `upload_sticker(file, directory, old_stickers)` with the file's raw
bytes already read (`image_data`) and the `os.path.isfile` test a boolean
input.  Returns the optional resulting entry and whether the upload
collaborator was invoked. -/
def upload_sticker (env : SyncEnv) (file : String) (isFile : Bool)
    (image_data : List Nat) (old_stickers : List (String × StickerInfo)) :
    Option StickerInfo × Bool :=
  if strStartsWith file "." then (none, false)
  else if !isFile then (none, false)
  else
    match env.mimeOf file with
    | none => (none, false)
    | some mime =>
      if !(strStartsWith mime "image/") then (none, false)
      else
        let name := derive_name file
        let sticker_id := "sha256:" ++ env.hashHex image_data
        match lookupSticker old_stickers sticker_id with
        | some old => (some { old with body := name }, false)
        | none =>
          let image_format := ImageFormat.from_mime_type mime
          let dec := env.decode image_data image_format
          let mxc := env.upload dec.1 image_format.to_mime_type
            (file ++ "." ++ image_format.to_extension)
          let s := make_sticker mxc dec.2.1 dec.2.2 dec.1.length name "image/png"
          (some { s with id := sticker_id }, true)

/-- Claim C2: when the content fingerprint of the raw bytes is a key of the
previous manifest, `upload_sticker` returns the previous entry with every
field unchanged except `body`, which becomes the display name freshly
derived from the current filename, and the upload collaborator is not
invoked. -/
theorem upload_sticker_dedup_reuses_entry (env : SyncEnv) (file : String)
    (image_data : List Nat) (old_stickers : List (String × StickerInfo))
    (s : StickerInfo) (mime : String)
    (h1 : strStartsWith file "." = false)
    (h2 : env.mimeOf file = some mime)
    (h3 : strStartsWith mime "image/" = true)
    (h4 : lookupSticker old_stickers ("sha256:" ++ env.hashHex image_data)
      = some s) :
    upload_sticker env file true image_data old_stickers
      = (some { s with body := derive_name file }, false) := by
  unfold upload_sticker
  rw [h1, h2]
  simp only [Bool.not_true, Bool.false_eq_true, if_false, h3, Bool.not_false,
    Bool.not_eq_true]
  rw [h4]

/-- Concrete collaborators for the dedup scenario: a fixed fingerprint and
MIME sniffer. -/
def envC2 : SyncEnv :=
  { hashHex := fun _ => "0011",
    mimeOf := fun _ => some "image/png",
    decode := fun image_data _ => (image_data, 1, 1),
    upload := fun _ _ _ => "mxc://host/media" }

/-- A previous manifest entry under fingerprint `sha256:0011`. -/
def stickerC2 : StickerInfo :=
  { id := "sha256:0011", body := "a", url := "mxc://host/abc",
    info :=
      { w := 3, h := 4, size := 5, mimetype := "image/png",
        thumbnail_url := "mxc://host/abc",
        thumbnail_info := { w := 3, h := 4, size := 5, mimetype := "image/png" } },
    msgtype := "m.sticker" }

/-- Concrete instance of `upload_sticker_dedup_reuses_entry`: the dedup
scenario from the spec — same bytes under a new filename `b.png` reuses the
entry, refreshes `body` to `"b"` and performs no upload. -/
theorem upload_sticker_dedup_witness :
    upload_sticker envC2 "b.png" true [7] [("sha256:0011", stickerC2)]
      = (some { stickerC2 with body := "b" }, false) := by
  have h := upload_sticker_dedup_reuses_entry envC2 "b.png" [7]
    [("sha256:0011", stickerC2)] stickerC2 "image/png" (by decide) rfl
    (by decide) (by decide)
  rw [h]
  rfl

/-! ## Manifest and Index Writer (`sticker/lib/util.py`, `add_to_index`,
`load_index_data`, `add_name_to_packs`) -/

/-- JSON values as produced by `json.load`. -/
inductive Json where
  | null
  | bool (b : Bool)
  | num (n : Int)
  | str (s : String)
  | arr (l : List Json)
  | obj (kvs : List (String × Json))

/-- The Python errors the index writer can raise. -/
inductive PyErr where
  | keyError
  | typeError
  | attributeError
deriving DecidableEq, Repr

/-- The state of the `index.json` file: absent, unparseable, or a parsed
top-level JSON object (the `dict` produced by `json.load`, as declared by
`load_index_data`). -/
inductive IndexFile where
  | missing
  | malformed
  | valid (kvs : List (String × Json))

/-- Python substring test `need in hay` on character lists (contiguous
substring; the empty string is a substring of everything). -/
def listHasSub (hay need : List Char) : Bool :=
  match hay with
  | [] => need.isEmpty
  | _ :: t => listStartsWith hay need || listHasSub t need

/-- Python equality of a JSON value with the string `name` (used by
`name in list`): only an equal string compares equal. -/
def jsonIsStr (name : String) : Json → Bool
  | .str s => s == name
  | _ => false

/-- Dict lookup `d[k]` as first-match association lookup (`json.load`
produces unique keys). -/
def lookupKey (kvs : List (String × Json)) (k : String) : Option Json :=
  (kvs.find? (fun kv => kv.1 == k)).map (fun kv => kv.2)

/-- Replace the value stored under an existing key, keeping its position
(Python in-place dict assignment). -/
def setKey (kvs : List (String × Json)) (k : String) (v : Json) :
    List (String × Json) :=
  kvs.map (fun kv => if kv.1 == k then (k, v) else kv)

/-- Python `name in v` for a JSON value `v`: substring test on strings,
element equality on lists, key membership on objects, `TypeError`
otherwise. -/
def json_in (name : String) : Json → Except PyErr Bool
  | .str s => .ok (listHasSub s.data name.data)
  | .arr l => .ok (l.any (jsonIsStr name))
  | .obj kvs => .ok ((kvs.map Prod.fst).contains name)
  | _ => .error .typeError

/-- `load_index_data`: a missing file (`FileNotFoundError`) or malformed
JSON (`json.JSONDecodeError`) is replaced by the fresh structure
`{"packs": []}`. -/
def load_index_data : IndexFile → List (String × Json)
  | .missing => [("packs", Json.arr [])]
  | .malformed => [("packs", Json.arr [])]
  | .valid kvs => kvs

/-- `add_name_to_packs(index_data, name, index_path)`: evaluate
`name not in index_data["packs"]`; a missing key raises `KeyError`; on a
non-container value the membership test raises `TypeError`; when the name
is absent, `index_data["packs"].append(name)` succeeds only on a list
(`AttributeError` otherwise) and the updated structure is written out.
`.ok (some kvs)` is a completed write of `kvs`; `.ok none` is the silent
no-op path. -/
def add_name_to_packs (kvs : List (String × Json)) (name : String) :
    Except PyErr (Option (List (String × Json))) :=
  match lookupKey kvs "packs" with
  | none => .error .keyError
  | some v =>
    match json_in name v with
    | .error e => .error e
    | .ok true => .ok none
    | .ok false =>
      match v with
      | .arr l => .ok (some (setKey kvs "packs" (.arr (l ++ [.str name]))))
      | _ => .error .attributeError

/-- Python truthiness of the optional module-level `matrix.homeserver_url`
(`None` and the empty string are falsy). -/
def truthyStr : Option String → Bool
  | none => false
  | some s => !s.isEmpty

/-- `add_to_index(name, output_dir)` with the file state and the global
homeserver URL made explicit: load or default the index, set
`homeserver_url` when absent and known (a fresh dict key is appended), then
add the name to `packs`. -/
def add_to_index (file : IndexFile) (name : String)
    (homeserver : Option String) :
    Except PyErr (Option (List (String × Json))) :=
  let index_data := load_index_data file
  let index_data :=
    if ((lookupKey index_data "homeserver_url").isNone && truthyStr homeserver)
    then index_data ++ [("homeserver_url", Json.str (homeserver.getD ""))]
    else index_data
  add_name_to_packs index_data name

/-- The `packs` list of the index file as the writer would load it. -/
def packsOf (file : IndexFile) : Option (List Json) :=
  match lookupKey (load_index_data file) "packs" with
  | some (Json.arr l) => some l
  | _ => none

/-- The file state after one `add_to_index` call: a completed write
replaces the file, otherwise the file is untouched. -/
def index_state_after (file : IndexFile) (name : String)
    (homeserver : Option String) : IndexFile :=
  match add_to_index file name homeserver with
  | .ok (some kvs) => .valid kvs
  | _ => file

/-- A JSON value is a list. -/
def isArrJson : Json → Bool
  | .arr _ => true
  | _ => false

theorem lookupKey_append_of_some (kvs e : List (String × Json)) (k : String)
    (v : Json) (h : lookupKey kvs k = some v) :
    lookupKey (kvs ++ e) k = some v := by
  unfold lookupKey at *
  rw [List.find?_append]
  cases hf : kvs.find? (fun kv => kv.1 == k) with
  | none => rw [hf] at h; exact absurd h (by simp)
  | some kv => rw [hf] at h; simp_all

theorem lookupKey_append_of_none (kvs e : List (String × Json)) (k : String)
    (h : lookupKey kvs k = none) :
    lookupKey (kvs ++ e) k = lookupKey e k := by
  unfold lookupKey at *
  rw [List.find?_append]
  cases hf : kvs.find? (fun kv => kv.1 == k) with
  | none => simp
  | some kv => rw [hf] at h; exact absurd h (by simp)

theorem lookupKey_setKey (kvs : List (String × Json)) (k : String) (v : Json) :
    lookupKey (setKey kvs k v) k = (lookupKey kvs k).map (fun _ => v) := by
  induction kvs with
  | nil => rfl
  | cons kv t ih =>
    unfold setKey lookupKey at ih ⊢
    by_cases hk : (kv.1 == k) = true
    · rw [List.map_cons, if_pos hk, List.find?_cons, List.find?_cons]
      have h1 : ((k, v).1 == k) = true := by simp
      rw [h1, hk]
      rfl
    · have h1 : (kv.1 == k) = false := by simpa using hk
      rw [List.map_cons, if_neg hk, List.find?_cons, List.find?_cons, h1]
      exact ih

/-- The `homeserver_url` step of `add_to_index` applied to a loaded dict. -/
def with_homeserver (kvs : List (String × Json)) (homeserver : Option String) :
    List (String × Json) :=
  if ((lookupKey kvs "homeserver_url").isNone && truthyStr homeserver)
  then kvs ++ [("homeserver_url", Json.str (homeserver.getD ""))]
  else kvs

theorem add_to_index_eq (file : IndexFile) (name : String)
    (hs : Option String) :
    add_to_index file name hs
      = add_name_to_packs (with_homeserver (load_index_data file) hs) name := rfl

theorem with_homeserver_packs_some (kvs : List (String × Json))
    (hs : Option String) (v : Json) (h : lookupKey kvs "packs" = some v) :
    lookupKey (with_homeserver kvs hs) "packs" = some v := by
  unfold with_homeserver
  split_ifs with hcond
  · exact lookupKey_append_of_some kvs _ "packs" v h
  · exact h

theorem with_homeserver_packs_none (kvs : List (String × Json))
    (hs : Option String) (h : lookupKey kvs "packs" = none) :
    lookupKey (with_homeserver kvs hs) "packs" = none := by
  unfold with_homeserver
  split_ifs with hcond
  · rw [lookupKey_append_of_none kvs _ "packs" h]
    rfl
  · exact h

theorem add_name_to_packs_arr (kvs : List (String × Json)) (name : String)
    (l : List Json) (hk : lookupKey kvs "packs" = some (Json.arr l)) :
    add_name_to_packs kvs name
      = if l.any (jsonIsStr name)
        then .ok none
        else .ok (some (setKey kvs "packs" (.arr (l ++ [.str name])))) := by
  unfold add_name_to_packs
  rw [hk]
  cases ha : l.any (jsonIsStr name) <;> simp [json_in, ha]

theorem add_name_to_packs_ok_true (kvs : List (String × Json)) (name : String)
    (v : Json) (hk : lookupKey kvs "packs" = some v)
    (hin : json_in name v = .ok true) :
    add_name_to_packs kvs name = .ok none := by
  unfold add_name_to_packs
  split
  next hnone =>
    rw [hnone] at hk
    exact absurd hk (by simp)
  next v2 hsome =>
    rw [hsome] at hk
    injection hk with hv
    subst hv
    rw [hin]

theorem add_name_to_packs_ok_false_nonarr (kvs : List (String × Json))
    (name : String) (v : Json) (hk : lookupKey kvs "packs" = some v)
    (hnarr : isArrJson v = false) (hin : json_in name v = .ok false) :
    add_name_to_packs kvs name = .error .attributeError := by
  unfold add_name_to_packs
  split
  next hnone =>
    rw [hnone] at hk
    exact absurd hk (by simp)
  next v2 hsome =>
    rw [hsome] at hk
    injection hk with hv
    subst hv
    rw [hin]
    cases v2 with
    | arr l => exact absurd hnarr (by simp [isArrJson])
    | null => rfl
    | bool b => rfl
    | num n => rfl
    | str s => rfl
    | obj o => rfl

theorem add_name_to_packs_err (kvs : List (String × Json)) (name : String)
    (v : Json) (hk : lookupKey kvs "packs" = some v) (e : PyErr)
    (hin : json_in name v = .error e) :
    add_name_to_packs kvs name = .error e := by
  unfold add_name_to_packs
  split
  next hnone =>
    rw [hnone] at hk
    exact absurd hk (by simp)
  next v2 hsome =>
    rw [hsome] at hk
    injection hk with hv
    subst hv
    rw [hin]

theorem packsOf_eq_some (file : IndexFile) (l : List Json)
    (h : packsOf file = some l) :
    lookupKey (load_index_data file) "packs" = some (Json.arr l) := by
  unfold packsOf at h
  cases hk : lookupKey (load_index_data file) "packs" with
  | none => rw [hk] at h; exact absurd h (by simp)
  | some v =>
    rw [hk] at h
    cases v <;> simp_all

theorem jsonIsStr_self (name : String) : jsonIsStr name (Json.str name) = true := by
  simp [jsonIsStr]

/-- Claim C8: starting from an index whose `packs` list holds the filename
at most once (the data-model invariant), two successive `add_to_index`
calls with the same filename leave `packs` containing that filename exactly
once, and the second call performs no write (it is the `.ok none` no-op). -/
theorem add_to_index_idempotent (file : IndexFile) (name : String)
    (hs : Option String) (l : List Json)
    (hp : packsOf file = some l)
    (hc : l.countP (jsonIsStr name) ≤ 1) :
    add_to_index (index_state_after file name hs) name hs = .ok none ∧
    ∃ l1, packsOf (index_state_after file name hs) = some l1 ∧
      l1.countP (jsonIsStr name) = 1 := by
  have hk0 := packsOf_eq_some file l hp
  have hk1 : lookupKey (with_homeserver (load_index_data file) hs) "packs"
      = some (Json.arr l) :=
    with_homeserver_packs_some _ hs _ hk0
  have hrun1 := add_to_index_eq file name hs
  cases ha : l.any (jsonIsStr name) with
  | true =>
    have hfirst : add_to_index file name hs = .ok none := by
      rw [hrun1, add_name_to_packs_arr _ name l hk1, if_pos ha]
    have hstate : index_state_after file name hs = file := by
      unfold index_state_after
      rw [hfirst]
    rw [hstate]
    have hcount : l.countP (jsonIsStr name) = 1 := by
      have hpos : 0 < l.countP (jsonIsStr name) :=
        List.countP_pos_iff.mpr (List.any_eq_true.mp ha)
      omega
    exact ⟨hfirst, l, hp, hcount⟩
  | false =>
    have hzero : l.countP (jsonIsStr name) = 0 := by
      rw [List.countP_eq_zero]
      intro a hal hpa
      have hat : l.any (jsonIsStr name) = true :=
        List.any_eq_true.mpr ⟨a, hal, hpa⟩
      rw [ha] at hat
      exact absurd hat (by simp)
    have hfirst : add_to_index file name hs
        = .ok (some (setKey (with_homeserver (load_index_data file) hs) "packs"
            (.arr (l ++ [.str name])))) := by
      rw [hrun1, add_name_to_packs_arr _ name l hk1, if_neg (by simp [ha])]
    have hstate : index_state_after file name hs
        = .valid (setKey (with_homeserver (load_index_data file) hs) "packs"
            (.arr (l ++ [.str name]))) := by
      unfold index_state_after
      rw [hfirst]
    have hk2 : lookupKey (setKey (with_homeserver (load_index_data file) hs) "packs"
        (.arr (l ++ [.str name]))) "packs" = some (.arr (l ++ [.str name])) := by
      rw [lookupKey_setKey, hk1]
      rfl
    have hany2 : (l ++ [Json.str name]).any (jsonIsStr name) = true := by
      rw [List.any_eq_true]
      exact ⟨Json.str name, List.mem_append_right l (by simp), jsonIsStr_self name⟩
    constructor
    · rw [hstate, add_to_index_eq]
      rw [show load_index_data (IndexFile.valid (setKey
          (with_homeserver (load_index_data file) hs) "packs"
          (Json.arr (l ++ [Json.str name])))) = setKey
          (with_homeserver (load_index_data file) hs) "packs"
          (Json.arr (l ++ [Json.str name])) from rfl]
      have hk3 : lookupKey (with_homeserver (setKey
          (with_homeserver (load_index_data file) hs) "packs"
          (.arr (l ++ [.str name]))) hs) "packs"
          = some (.arr (l ++ [.str name])) :=
        with_homeserver_packs_some _ hs _ hk2
      rw [add_name_to_packs_arr _ name (l ++ [.str name]) hk3, if_pos hany2]
    · refine ⟨l ++ [Json.str name], ?_, ?_⟩
      · rw [hstate]
        unfold packsOf
        rw [show load_index_data (.valid (setKey
            (with_homeserver (load_index_data file) hs) "packs"
            (.arr (l ++ [.str name])))) = setKey
            (with_homeserver (load_index_data file) hs) "packs"
            (.arr (l ++ [.str name])) from rfl, hk2]
      · rw [List.countP_append, hzero]
        simp [jsonIsStr_self]

/-- Concrete instance of `add_to_index_idempotent`: starting from a missing
index file, two calls for `"a.json"` leave it listed exactly once and the
second call writes nothing. -/
theorem add_to_index_idempotent_witness :
    add_to_index (index_state_after IndexFile.missing "a.json" none)
      "a.json" none = .ok none ∧
    ∃ l1, packsOf (index_state_after IndexFile.missing "a.json" none) = some l1 ∧
      l1.countP (jsonIsStr "a.json") = 1 :=
  add_to_index_idempotent IndexFile.missing "a.json" none []
    rfl (Nat.zero_le 1)

/-- Claim C10, counterexample: an index file that parses as the valid JSON
object with a non-list `"packs"` value — the string `"a.json"` — does not
make `add_to_index("a.json", …)` fail: the Python membership test
`"a.json" not in "a.json"` is a substring test that evaluates to `False`,
so the call silently no-ops without error. -/
theorem add_to_index_nonlist_packs_silent_noop :
    add_to_index (IndexFile.valid [("packs", Json.str "a.json")])
      "a.json" none = .ok none := rfl

/-- Claim C10 (amended): a missing or malformed index file is replaced by
the fresh structure with an empty `packs` list; a valid JSON object without
a `"packs"` key makes `add_to_index` fail with `KeyError`; a non-list
`"packs"` value makes it fail — `TypeError` when the membership test does
not apply, `AttributeError` when the name is absent and the append is
attempted — except when the membership test `name in packs` itself succeeds
and returns true (a string containing the name as a substring, or an object
having the name as a key), in which case the call silently no-ops. -/
theorem add_to_index_bad_index_spec (kvs : List (String × Json))
    (name : String) (hs : Option String) :
    (lookupKey kvs "packs" = none →
      add_to_index (.valid kvs) name hs = .error .keyError) ∧
    (∀ v, lookupKey kvs "packs" = some v → isArrJson v = false →
      (json_in name v = .ok true →
        add_to_index (.valid kvs) name hs = .ok none) ∧
      (json_in name v = .ok false →
        add_to_index (.valid kvs) name hs = .error .attributeError) ∧
      (∀ e, json_in name v = .error e →
        add_to_index (.valid kvs) name hs = .error e)) ∧
    load_index_data .missing = [("packs", Json.arr [])] ∧
    load_index_data .malformed = [("packs", Json.arr [])] := by
  have hload : load_index_data (.valid kvs) = kvs := rfl
  refine ⟨?_, ?_, rfl, rfl⟩
  · intro hnone
    rw [add_to_index_eq, hload]
    have hk := with_homeserver_packs_none kvs hs hnone
    unfold add_name_to_packs
    rw [hk]
  · intro v hv hnarr
    have hk : lookupKey (with_homeserver kvs hs) "packs" = some v :=
      with_homeserver_packs_some kvs hs v hv
    refine ⟨?_, ?_, ?_⟩
    · intro hin
      rw [add_to_index_eq, hload]
      exact add_name_to_packs_ok_true _ name v hk hin
    · intro hin
      rw [add_to_index_eq, hload]
      exact add_name_to_packs_ok_false_nonarr _ name v hk hnarr hin
    · intro e hin
      rw [add_to_index_eq, hload]
      exact add_name_to_packs_err _ name v hk e hin

/-- Concrete instances of `add_to_index_bad_index_spec`: an object without
a `"packs"` key raises `KeyError`, and a string-valued `"packs"` not
containing the name raises `AttributeError` at the append. -/
theorem add_to_index_bad_index_spec_witness :
    add_to_index (IndexFile.valid []) "x" none = .error .keyError ∧
    add_to_index (IndexFile.valid [("packs", Json.str "zz")]) "x" none
      = .error .attributeError :=
  ⟨(add_to_index_bad_index_spec [] "x" none).1 rfl,
   ((add_to_index_bad_index_spec [("packs", Json.str "zz")] "x" none).2.1
      (Json.str "zz") rfl rfl).2.1 rfl⟩
